import Mathlib

/-!
Shallow embedding of the `udl` gateway worker.

The repository contains two implementations of the same gateway:
* `src/worker/src/index.ts` — a flat-route Cloudflare Worker (`handleRequest`
  plus a `fetch` wrapper that converts thrown values into responses);
* `src/unnamed/part_000` — a Hono app with resource-nested routes
  (`app.post /uploads/create`, …, `app.delete /objects/:key`).

Both are stateless request handlers over an external backing store (R2).
We embed each one as a pure function from a request, an environment and a
backing-store oracle (the store's replies) to a response together with the
list of backing-store calls the handler performed, in order.  Store calls
are recorded in a trace so that "no backing-store call is made" is a
statement about the handler, independent of the oracle.
-/

set_option autoImplicit false

namespace Udl

/-- A JSON value as produced by `JSON.parse` / `request.json()`.  Numbers are
modelled as rationals (the code only ever inspects their runtime type and
forwards them verbatim); object fields are the already-parsed object's
properties, so duplicate keys have already been collapsed by the parser. -/
inductive Json where
  | null
  | bool (b : Bool)
  | num (v : Rat)
  | str (s : String)
  | arr (elems : List Json)
  | obj (fields : List (String × Json))

/-- The body of an incoming request: absent (`request.body == null`),
present and parseable as JSON, or present but not valid JSON (in which case
`request.json()` throws). -/
inductive ReqBody where
  | absent
  | jsonOf (j : Json)
  | nonJson (raw : String)

/-- An incoming HTTP request, reduced to the fields the two handlers read:
method, URL pathname, decoded query string pairs (first occurrence wins, as
with `URLSearchParams.get` / Hono `c.req.query`), the `Authorization` header,
and the body. -/
structure Request where
  method : String
  pathname : String
  query : List (String × String)
  authorization : Option String
  body : ReqBody

/-- The worker environment: whether the `BUCKET` binding is configured, and
the `AUTH_KEY` secret (absent when the secret was never set). -/
structure Env where
  bucketBound : Bool
  authKey : Option String

/-- One backing-store (R2) network call, with the arguments the handler
passed.  `resumeMultipartUpload` is a local handle constructor with no
network call, so it is not recorded; its key/uploadId arguments appear on
the `uploadPart` / `complete` entries. -/
inductive StoreCall where
  | createMultipartUpload (key : String)
  | uploadPart (key uploadId : String) (partNumber : Int) (body : ReqBody)
  | complete (key uploadId : String) (elems : List Json)
  | get (key : String)
  | head (key : String)
  | list (pfx : Option String)
  | delete (key : String)

/-- Replies of the backing store, one field per operation the handlers use.
`createReply` returns the created session's `(mpu.key, mpu.uploadId)`;
`uploadPartReply` returns the stored part's `(partNumber, etag)`;
`getReply` the object's bytes when present; `headReply` its `(size, etag)`;
`listReply` the listed `(key, size, etag)` entries.  `complete` and `delete`
return nothing. -/
structure Oracle where
  createReply : String → String × String
  uploadPartReply : String → String → Int → ReqBody → Int × String
  getReply : String → Option String
  headReply : String → Option (Nat × String)
  listReply : Option String → List (String × Nat × String)

/-- A response body: plain text (`new Response('…')`), JSON
(`Response.json` / `c.json`), a streamed object body, or empty (`null`). -/
inductive ResBody where
  | text (s : String)
  | json (j : Json)
  | stream (bytes : String)
  | empty

/-- An HTTP response, reduced to status and body. -/
structure Response where
  status : Nat
  body : ResBody

/-- JSON error body `{"error": msg}`. -/
def errJson (msg : String) : ResBody :=
  .json (.obj [("error", .str msg)])

/-- Abbreviation for a JSON response. -/
def jsonResp (status : Nat) (j : Json) : Response :=
  ⟨status, .json j⟩

/-! ### JavaScript primitives used by both implementations -/

/-- Characters stripped by `parseInt` before parsing (JS WhiteSpace and the
common line terminators). -/
def jsWhitespace (c : Char) : Bool :=
  c = ' ' ∨ c = '\t' ∨ c = '\n' ∨ c = '\r' ∨ c = '\x0b' ∨ c = '\x0c' ∨ c = ' '

/-- Value of a list of decimal digits, most significant first. -/
def digitsVal (cs : List Char) : Nat :=
  cs.foldl (fun a c => a * 10 + (c.toNat - 48)) 0

/-- The longest leading run of ASCII decimal digits, or `none` when there is
no leading digit (`parseInt` then returns `NaN`). -/
def leadingDigits (cs : List Char) : Option Nat :=
  let ds := cs.takeWhile Char.isDigit
  if ds.isEmpty then none else some (digitsVal ds)

/-- JavaScript `parseInt(s, 10)`: strip leading whitespace, read an optional
sign, then the longest leading run of decimal digits; `none` models `NaN`
(no digits).  Trailing non-digit characters are ignored, as in JS. -/
def jsParseInt10 (s : String) : Option Int :=
  match s.data.dropWhile jsWhitespace with
  | '-' :: rest => (leadingDigits rest).map (fun n => -(n : Int))
  | '+' :: rest => (leadingDigits rest).map (fun n => (n : Int))
  | rest => (leadingDigits rest).map (fun n => (n : Int))

/-- `String.prototype.split` on a single separator character (total,
structural, so that proofs can evaluate it). -/
def splitOnChar (c : Char) : List Char → List (List Char)
  | [] => [[]]
  | x :: xs =>
    match splitOnChar c xs with
    | h :: t => if x = c then [] :: h :: t else (x :: h) :: t
    | [] => if x = c then [[], []] else [[x]]

/-- JS `pathname.split('/')`. -/
def jsSplitSlash (s : String) : List String :=
  (splitOnChar '/' s.data).map (fun l => String.mk l)

/-- Property access `value.name` on a parsed JSON value.  On `null` this
throws a `TypeError` (modelled as `.error ()`); on objects it returns the
field when present and `undefined` (modelled as `.ok none`) otherwise; on
every other value (primitives, arrays) these property names do not exist, so
access yields `undefined`. -/
def jsMember : Json → String → Except Unit (Option Json)
  | .null, _ => .error ()
  | .obj fields, name => .ok (List.lookup name fields)
  | _, _ => .ok none

/-- `await request.json()`: the parsed JSON value, or a thrown error when the
body is absent or not valid JSON. -/
def reqJson : ReqBody → Except Unit Json
  | .jsonOf j => .ok j
  | _ => .error ()

/-- The predicate `typeof part.partNumber === 'number' && typeof part.etag
=== 'string'` applied to one element of the completion body; `&&`
short-circuits, and property access on `null` throws. -/
def isValidPart (p : Json) : Except Unit Bool := do
  match ← jsMember p "partNumber" with
  | some (.num _) =>
    match ← jsMember p "etag" with
    | some (.str _) => pure true
    | _ => pure false
  | _ => pure false

/-- `parts.every(part => …)` for the completion-body element check; stops at
the first failing element, propagating a thrown `TypeError`. -/
def partsAllValid : List Json → Except Unit Bool
  | [] => .ok true
  | p :: rest => do
    if ← isValidPart p then partsAllValid rest else pure false

/-! ### The flat worker (`src/worker/src/index.ts`) -/

/-- The auth gate of `handleRequest`: the `Authorization` header must be
present and equal to the configured `AUTH_KEY` (a string never equals an
unset secret). -/
def flatAuthOk (req : Request) (env : Env) : Bool :=
  match req.authorization, env.authKey with
  | some a, some k => a == k
  | _, _ => false

/-- `url.pathname.split('/').at(1)`: the first path segment. -/
def firstPath (pathname : String) : Option String :=
  (jsSplitSlash pathname).get? 1

/-- `checkMethod`: throws a 405 plain-text response on method mismatch. -/
def checkMethod (req : Request) (method : String) : Except Response Unit :=
  if req.method ≠ method then .error ⟨405, .text "Method not allowed"⟩ else .ok ()

/-- `getUrlParam`: the query parameter's (decoded) value, or a thrown 400
plain-text response when absent.  An empty value is still a string and is
accepted. -/
def getUrlParam (req : Request) (name : String) : Except Response String :=
  match List.lookup name req.query with
  | none => .error ⟨400, .text ("Invalid or missing " ++ name)⟩
  | some v => .ok v

/-- `getUrlParamNumber`: `parseInt(value, 10)`, throwing a 400 plain-text
response when the parameter is absent or parses to `NaN`. -/
def getUrlParamNumber (req : Request) (name : String) : Except Response Int :=
  match getUrlParam req name with
  | .error r => .error r
  | .ok v =>
    match jsParseInt10 v with
    | none => .error ⟨400, .text ("Invalid " ++ name)⟩
    | some n => .ok n

/-- The result of one route handler: `none` for an escaped non-`Response`
exception (the `fetch` wrapper turns it into a 500), paired with the trace
of backing-store calls made. -/
abbrev HandlerResult := Option Response × List StoreCall

/-- The `start-upload` case of the flat worker's switch. -/
def flatStartUpload (req : Request) (o : Oracle) : HandlerResult :=
  match checkMethod req "POST" with
  | .error r => (some r, [])
  | .ok _ =>
    match getUrlParam req "key" with
    | .error r => (some r, [])
    | .ok key =>
      let mpu := o.createReply key
      (some (jsonResp 200 (.obj [("key", .str mpu.1), ("uploadId", .str mpu.2)])),
        [.createMultipartUpload key])

/-- The `upload-part` case of the flat worker's switch. -/
def flatUploadPart (req : Request) (o : Oracle) : HandlerResult :=
  match checkMethod req "POST" with
  | .error r => (some r, [])
  | .ok _ =>
    match req.body with
    | .absent => (some ⟨400, errJson "No body"⟩, [])
    | body =>
      match getUrlParam req "key" with
      | .error r => (some r, [])
      | .ok key =>
        match getUrlParam req "uploadId" with
        | .error r => (some r, [])
        | .ok uploadId =>
          match getUrlParamNumber req "partNumber" with
          | .error r => (some r, [])
          | .ok partNumber =>
            let part := o.uploadPartReply key uploadId partNumber body
            (some (jsonResp 200 (.obj [("partNumber", .num (part.1 : Rat)),
                                       ("etag", .str part.2)])),
              [.uploadPart key uploadId partNumber body])

/-- The `complete-upload` case of the flat worker's switch: validate
`key`/`uploadId`, parse the body, check it is a non-empty array of values
with a number `partNumber` and a string `etag`, then finalize. -/
def flatComplete (req : Request) (o : Oracle) : HandlerResult :=
  match checkMethod req "POST" with
  | .error r => (some r, [])
  | .ok _ =>
    match getUrlParam req "key" with
    | .error r => (some r, [])
    | .ok key =>
      match getUrlParam req "uploadId" with
      | .error r => (some r, [])
      | .ok uploadId =>
        match reqJson req.body with
        | .error _ => (none, [])
        | .ok j =>
          match j with
          | .arr elems =>
            match partsAllValid elems with
            | .error _ => (none, [])
            | .ok false => (some ⟨400, errJson "Invalid parts"⟩, [])
            | .ok true =>
              if elems.isEmpty then (some ⟨400, errJson "No parts"⟩, [])
              else
                (some (jsonResp 200 (.obj [("key", .str key)])),
                  [.complete key uploadId elems])
          | _ => (some ⟨400, errJson "Invalid parts"⟩, [])

/-- The `download` case of the flat worker's switch. -/
def flatDownload (req : Request) (o : Oracle) : HandlerResult :=
  match checkMethod req "GET" with
  | .error r => (some r, [])
  | .ok _ =>
    match getUrlParam req "key" with
    | .error r => (some r, [])
    | .ok key =>
      match o.getReply key with
      | none => (some ⟨404, errJson "Not found"⟩, [.get key])
      | some bytes => (some ⟨200, .stream bytes⟩, [.get key])

/-- The `stats` case of the flat worker's switch. -/
def flatStats (req : Request) (o : Oracle) : HandlerResult :=
  match checkMethod req "GET" with
  | .error r => (some r, [])
  | .ok _ =>
    match getUrlParam req "key" with
    | .error r => (some r, [])
    | .ok key =>
      match o.headReply key with
      | none => (some ⟨404, errJson "Not found"⟩, [.head key])
      | some hd =>
        (some (jsonResp 200 (.obj [("size", .num (hd.1 : Rat)), ("etag", .str hd.2)])),
          [.head key])

/-- `handleRequest` of the flat worker: auth gate, then dispatch on the first
path segment.  Thrown `Response`s are indistinguishable from returned ones
at the `fetch` wrapper, so both are modelled as the produced response. -/
def handleRequest (req : Request) (env : Env) (o : Oracle) : HandlerResult :=
  if flatAuthOk req env = false then (some ⟨401, errJson "Unauthorized"⟩, [])
  else
    match firstPath req.pathname with
    | none => (some ⟨404, errJson "Not found"⟩, [])
    | some seg =>
      match seg with
      | "start-upload" => flatStartUpload req o
      | "upload-part" => flatUploadPart req o
      | "complete-upload" => flatComplete req o
      | "download" => flatDownload req o
      | "stats" => flatStats req o
      | _ => (some ⟨404, errJson "Not found"⟩, [])

/-- The flat worker's exported `fetch`: run `handleRequest`, turning an
escaped non-`Response` exception into a 500 JSON error. -/
def workerFetch (req : Request) (env : Env) (o : Oracle) : Response × List StoreCall :=
  match handleRequest req env o with
  | (some r, t) => (r, t)
  | (none, t) => (⟨500, errJson "Internal server error"⟩, t)

/-! ### The Hono app (`src/unnamed/part_000`) -/

/-- A failure inside a Hono handler: a thrown `HTTPException` (carrying a
status and message) or any other thrown error; `app.onError` maps the former
to `{"error": message}` with that status and the latter to a 500. -/
inductive HErr where
  | http (status : Nat) (message : String)
  | exn

/-- `getQueryString`: the query parameter's value, or a thrown
`HTTPException(400, "Missing <name>")`. -/
def getQueryString (req : Request) (name : String) : Except HErr String :=
  match List.lookup name req.query with
  | none => .error (.http 400 ("Missing " ++ name))
  | some v => .ok v

/-- `getQueryNumber`: `parseInt(value, 10)` of the query parameter, throwing
`HTTPException(400, …)` when absent or `NaN`. -/
def getQueryNumber (req : Request) (name : String) : Except HErr Int :=
  match getQueryString req name with
  | .error e => .error e
  | .ok v =>
    match jsParseInt10 v with
    | none => .error (.http 400 ("Invalid " ++ name))
    | some n => .ok n

/-- The result of one Hono route handler before `onError` translation. -/
abbrev HonoResult := Except HErr Response × List StoreCall

/-- `app.post /uploads/create`. -/
def honoCreate (req : Request) (o : Oracle) : HonoResult :=
  match getQueryString req "key" with
  | .error e => (.error e, [])
  | .ok key =>
    let mpu := o.createReply key
    (.ok (jsonResp 200 (.obj [("key", .str mpu.1), ("uploadId", .str mpu.2)])),
      [.createMultipartUpload key])

/-- `app.post /uploads/upload-part`. -/
def honoUploadPart (req : Request) (o : Oracle) : HonoResult :=
  match req.body with
  | .absent => (.error (.http 400 "No body"), [])
  | body =>
    match getQueryString req "key" with
    | .error e => (.error e, [])
    | .ok key =>
      match getQueryString req "uploadId" with
      | .error e => (.error e, [])
      | .ok uploadId =>
        match getQueryNumber req "partNumber" with
        | .error e => (.error e, [])
        | .ok partNumber =>
          let part := o.uploadPartReply key uploadId partNumber body
          (.ok (jsonResp 200 (.obj [("partNumber", .num (part.1 : Rat)),
                                    ("etag", .str part.2)])),
            [.uploadPart key uploadId partNumber body])

/-- `app.post /uploads/complete`. -/
def honoComplete (req : Request) (o : Oracle) : HonoResult :=
  match getQueryString req "key" with
  | .error e => (.error e, [])
  | .ok key =>
    match getQueryString req "uploadId" with
    | .error e => (.error e, [])
    | .ok uploadId =>
      match reqJson req.body with
      | .error _ => (.error .exn, [])
      | .ok j =>
        match j with
        | .arr elems =>
          match partsAllValid elems with
          | .error _ => (.error .exn, [])
          | .ok false => (.error (.http 400 "Invalid parts"), [])
          | .ok true =>
            if elems.isEmpty then (.error (.http 400 "No parts"), [])
            else
              (.ok (jsonResp 200 (.obj [("key", .str key)])),
                [.complete key uploadId elems])
        | _ => (.error (.http 400 "Invalid parts"), [])

/-- `app.get /objects` (list). -/
def honoList (req : Request) (o : Oracle) : HonoResult :=
  let pfx := List.lookup "prefix" req.query
  let entries := o.listReply pfx
  (.ok (jsonResp 200 (.arr (entries.map (fun e =>
      .obj [("key", .str e.1), ("size", .num (e.2.1 : Rat)), ("etag", .str e.2.2)])))),
    [.list pfx])

/-- `app.get /objects/:key`.  The `:key` path parameter is supplied by the
router, so `getPathString` cannot throw here. -/
def honoGet (key : String) (o : Oracle) : HonoResult :=
  match o.getReply key with
  | none => (.error (.http 404 "Not found"), [.get key])
  | some bytes => (.ok ⟨200, .stream bytes⟩, [.get key])

/-- `app.get /objects/:key/stats`. -/
def honoStats (key : String) (o : Oracle) : HonoResult :=
  match o.headReply key with
  | none => (.error (.http 404 "Not found"), [.head key])
  | some hd =>
    (.ok (jsonResp 200 (.obj [("size", .num (hd.1 : Rat)), ("etag", .str hd.2)])),
      [.head key])

/-- `app.delete /objects/:key`: delete unconditionally, 204 with no body. -/
def honoDelete (key : String) (o : Oracle) : HonoResult :=
  (.ok ⟨204, .empty⟩, [.delete key])

/-- The Hono app's path segments (everything after the leading slash). -/
def honoSegs (pathname : String) : List String :=
  (jsSplitSlash pathname).drop 1

/-- The Hono router: method plus path pattern to handler.  A `:key` segment
matches one non-empty segment.  `none` means no route matched and the
framework's own not-found response (outside the app's code) is served. -/
def honoDispatch (req : Request) (o : Oracle) : Option HonoResult :=
  match req.method, honoSegs req.pathname with
  | "POST", ["uploads", "create"] => some (honoCreate req o)
  | "POST", ["uploads", "upload-part"] => some (honoUploadPart req o)
  | "POST", ["uploads", "complete"] => some (honoComplete req o)
  | "GET", ["objects"] => some (honoList req o)
  | "GET", ["objects", k] => if k = "" then none else some (honoGet k o)
  | "GET", ["objects", k, "stats"] => if k = "" then none else some (honoStats k o)
  | "DELETE", ["objects", k] => if k = "" then none else some (honoDelete k o)
  | _, _ => none

/-- `app.onError` as a translation on a handler's outcome: thrown
`HTTPException`s become `{"error": message}` with their status, any other
thrown error becomes a 500. -/
def honoRun : HonoResult → Response × List StoreCall
  | (.ok r, t) => (r, t)
  | (.error (.http s m), t) => (⟨s, errJson m⟩, t)
  | (.error .exn, t) => (⟨500, errJson "Internal Server Error"⟩, t)

/-- The Hono app: the binding-checking middleware runs first (it answers 500
when `BUCKET` or `AUTH_KEY` is unset — note it never reads the request's
`Authorization` header), then the matched route handler, with thrown
failures translated by `app.onError`.  `none` means no route matched. -/
def honoApp (req : Request) (env : Env) (o : Oracle) :
    Option (Response × List StoreCall) :=
  if env.bucketBound = false then some (⟨500, errJson "Missing BUCKET binding"⟩, [])
  else if env.authKey.isNone then some (⟨500, errJson "Missing AUTH_KEY secret"⟩, [])
  else (honoDispatch req o).map honoRun

/-! ### Concrete fixtures used by witnesses and counterexamples -/

/-- A sample backing-store oracle: sessions get upload id `"uid-1"`, stored
parts get etag `"etag-1"`, and no object exists yet. -/
def oracleEx : Oracle where
  createReply := fun k => (k, "uid-1")
  uploadPartReply := fun _ _ pn _ => (pn, "etag-1")
  getReply := fun _ => none
  headReply := fun _ => none
  listReply := fun _ => []

/-- A sample environment with both bindings configured. -/
def envEx : Env := ⟨true, some "secret"⟩

/-! ### Dispatch lemmas -/

theorem workerFetch_unauth (req : Request) (env : Env) (o : Oracle)
    (hA : flatAuthOk req env = false) :
    workerFetch req env o = (⟨401, errJson "Unauthorized"⟩, []) := by
  simp [workerFetch, handleRequest, hA]

theorem handleRequest_start (req : Request) (env : Env) (o : Oracle)
    (hA : flatAuthOk req env = true)
    (hpath : firstPath req.pathname = some "start-upload") :
    handleRequest req env o = flatStartUpload req o := by
  simp [handleRequest, hA, hpath]

theorem handleRequest_uploadPart (req : Request) (env : Env) (o : Oracle)
    (hA : flatAuthOk req env = true)
    (hpath : firstPath req.pathname = some "upload-part") :
    handleRequest req env o = flatUploadPart req o := by
  simp [handleRequest, hA, hpath]

theorem handleRequest_complete (req : Request) (env : Env) (o : Oracle)
    (hA : flatAuthOk req env = true)
    (hpath : firstPath req.pathname = some "complete-upload") :
    handleRequest req env o = flatComplete req o := by
  simp [handleRequest, hA, hpath]

theorem honoApp_bound (req : Request) (env : Env) (o : Oracle)
    (hb : env.bucketBound = true) (hk : env.authKey.isSome = true) :
    honoApp req env o = (honoDispatch req o).map honoRun := by
  rcases henv : env.authKey with _ | k
  · rw [henv] at hk; cases hk
  · simp [honoApp, hb, henv]

theorem honoDispatch_create (req : Request) (o : Oracle)
    (hm : req.method = "POST")
    (hsegs : honoSegs req.pathname = ["uploads", "create"]) :
    honoDispatch req o = some (honoCreate req o) := by
  simp [honoDispatch, hm, hsegs]

theorem honoDispatch_uploadPart (req : Request) (o : Oracle)
    (hm : req.method = "POST")
    (hsegs : honoSegs req.pathname = ["uploads", "upload-part"]) :
    honoDispatch req o = some (honoUploadPart req o) := by
  simp [honoDispatch, hm, hsegs]

theorem honoDispatch_complete (req : Request) (o : Oracle)
    (hm : req.method = "POST")
    (hsegs : honoSegs req.pathname = ["uploads", "complete"]) :
    honoDispatch req o = some (honoComplete req o) := by
  simp [honoDispatch, hm, hsegs]

theorem honoDispatch_delete (req : Request) (o : Oracle) (k : String)
    (hm : req.method = "DELETE")
    (hsegs : honoSegs req.pathname = ["objects", k]) (hk : k ≠ "") :
    honoDispatch req o = some (honoDelete k o) := by
  simp [honoDispatch, hm, hsegs, hk]

theorem workerFetch_trace (req : Request) (env : Env) (o : Oracle) :
    (workerFetch req env o).2 = (handleRequest req env o).2 := by
  unfold workerFetch
  rcases h : handleRequest req env o with ⟨_ | r, t⟩ <;> simp

theorem workerFetch_of_handler_some (req : Request) (env : Env) (o : Oracle)
    (r : Response) (t : List StoreCall) (h : handleRequest req env o = (some r, t)) :
    workerFetch req env o = (r, t) := by
  simp [workerFetch, h]

/-! ### Behaviour of the complete-upload and upload-part handlers on
degenerate bodies -/

theorem flatComplete_empty (req : Request) (o : Oracle)
    (hbody : req.body = .jsonOf (.arr [])) (hm : req.method = "POST") :
    ∃ r : Response, flatComplete req o = (some r, []) ∧ r.status = 400 := by
  rcases hk : List.lookup "key" req.query with _ | k
  · exact ⟨⟨400, .text "Invalid or missing key"⟩,
      by simp [flatComplete, checkMethod, hm, getUrlParam, hk], rfl⟩
  · rcases hu : List.lookup "uploadId" req.query with _ | u
    · exact ⟨⟨400, .text "Invalid or missing uploadId"⟩,
        by simp [flatComplete, checkMethod, hm, getUrlParam, hk, hu], rfl⟩
    · exact ⟨⟨400, errJson "No parts"⟩,
        by simp [flatComplete, checkMethod, hm, getUrlParam, hk, hu, hbody,
                 reqJson, partsAllValid], rfl⟩

theorem flatComplete_trace_empty (req : Request) (o : Oracle)
    (hbody : req.body = .jsonOf (.arr [])) :
    (flatComplete req o).2 = [] := by
  by_cases hm : req.method = "POST"
  · rcases flatComplete_empty req o hbody hm with ⟨r, hr, _⟩
    rw [hr]
  · simp [flatComplete, checkMethod, hm]

theorem honoComplete_empty (req : Request) (o : Oracle)
    (hbody : req.body = .jsonOf (.arr [])) :
    ∃ m, honoComplete req o = (.error (.http 400 m), []) := by
  rcases hk : List.lookup "key" req.query with _ | k
  · exact ⟨"Missing key", by simp [honoComplete, getQueryString, hk]⟩
  · rcases hu : List.lookup "uploadId" req.query with _ | u
    · exact ⟨"Missing uploadId", by simp [honoComplete, getQueryString, hk, hu]⟩
    · exact ⟨"No parts",
        by simp [honoComplete, getQueryString, hk, hu, hbody, reqJson, partsAllValid]⟩

theorem flatUploadPart_no_body (req : Request) (o : Oracle)
    (hbody : req.body = .absent) (hm : req.method = "POST") :
    flatUploadPart req o = (some ⟨400, errJson "No body"⟩, []) := by
  simp [flatUploadPart, checkMethod, hm, hbody]

theorem flatUploadPart_trace_no_body (req : Request) (o : Oracle)
    (hbody : req.body = .absent) :
    (flatUploadPart req o).2 = [] := by
  by_cases hm : req.method = "POST"
  · rw [flatUploadPart_no_body req o hbody hm]
  · simp [flatUploadPart, checkMethod, hm]

theorem honoUploadPart_no_body (req : Request) (o : Oracle)
    (hbody : req.body = .absent) :
    honoUploadPart req o = (.error (.http 400 "No body"), []) := by
  simp [honoUploadPart, hbody]

/-- Evaluation of the flat worker's complete-upload case when the parsed
body is not an array. -/
theorem flatComplete_not_arr (req : Request) (o : Oracle) (j : Json) (k u : String)
    (hm : req.method = "POST")
    (hk : List.lookup "key" req.query = some k)
    (hu : List.lookup "uploadId" req.query = some u)
    (hbody : req.body = .jsonOf j) (hnot : ∀ elems, j ≠ .arr elems) :
    flatComplete req o = (some ⟨400, errJson "Invalid parts"⟩, []) := by
  cases j <;>
    first
    | exact absurd rfl (hnot _)
    | simp [flatComplete, checkMethod, hm, getUrlParam, hk, hu, hbody, reqJson]

/-- Evaluation of the flat worker's complete-upload case when some element
of the body array fails the type check. -/
theorem flatComplete_invalid (req : Request) (o : Oracle) (elems : List Json)
    (k u : String) (hm : req.method = "POST")
    (hk : List.lookup "key" req.query = some k)
    (hu : List.lookup "uploadId" req.query = some u)
    (hbody : req.body = .jsonOf (.arr elems))
    (hval : partsAllValid elems = .ok false) :
    flatComplete req o = (some ⟨400, errJson "Invalid parts"⟩, []) := by
  simp [flatComplete, checkMethod, hm, getUrlParam, hk, hu, hbody, reqJson, hval]

/-- Evaluation of the flat worker's complete-upload case on the empty
array. -/
theorem flatComplete_no_parts (req : Request) (o : Oracle) (k u : String)
    (hm : req.method = "POST")
    (hk : List.lookup "key" req.query = some k)
    (hu : List.lookup "uploadId" req.query = some u)
    (hbody : req.body = .jsonOf (.arr [])) :
    flatComplete req o = (some ⟨400, errJson "No parts"⟩, []) := by
  simp [flatComplete, checkMethod, hm, getUrlParam, hk, hu, hbody, reqJson,
    partsAllValid]

/-- Evaluation of the flat worker's complete-upload case on a valid
non-empty body: the parsed array is forwarded verbatim to `complete`. -/
theorem flatComplete_ok (req : Request) (o : Oracle) (elems : List Json)
    (k u : String) (hm : req.method = "POST")
    (hk : List.lookup "key" req.query = some k)
    (hu : List.lookup "uploadId" req.query = some u)
    (hbody : req.body = .jsonOf (.arr elems))
    (hval : partsAllValid elems = .ok true) (hie : elems.isEmpty = false) :
    flatComplete req o
      = (some (jsonResp 200 (.obj [("key", .str k)])), [.complete k u elems]) := by
  simp [flatComplete, checkMethod, hm, getUrlParam, hk, hu, hbody, reqJson, hval, hie]

/-- Composed dispatch: an authorized POST whose first segment is
`complete-upload` runs `flatComplete`. -/
theorem workerFetch_complete_eq (req : Request) (env : Env) (o : Oracle)
    (r : Response) (t : List StoreCall)
    (hA : flatAuthOk req env = true)
    (hpath : firstPath req.pathname = some "complete-upload")
    (h : flatComplete req o = (some r, t)) :
    workerFetch req env o = (r, t) :=
  workerFetch_of_handler_some req env o r t
    ((handleRequest_complete req env o hA hpath).trans h)

/-- Evaluation of the Hono complete handler when the parsed body is not an
array. -/
theorem honoComplete_not_arr (req : Request) (o : Oracle) (j : Json) (k u : String)
    (hk : List.lookup "key" req.query = some k)
    (hu : List.lookup "uploadId" req.query = some u)
    (hbody : req.body = .jsonOf j) (hnot : ∀ elems, j ≠ .arr elems) :
    honoComplete req o = (.error (.http 400 "Invalid parts"), []) := by
  cases j <;>
    first
    | exact absurd rfl (hnot _)
    | simp [honoComplete, getQueryString, hk, hu, hbody, reqJson]

/-- Evaluation of the Hono complete handler when some element of the body
array fails the type check. -/
theorem honoComplete_invalid (req : Request) (o : Oracle) (elems : List Json)
    (k u : String)
    (hk : List.lookup "key" req.query = some k)
    (hu : List.lookup "uploadId" req.query = some u)
    (hbody : req.body = .jsonOf (.arr elems))
    (hval : partsAllValid elems = .ok false) :
    honoComplete req o = (.error (.http 400 "Invalid parts"), []) := by
  simp [honoComplete, getQueryString, hk, hu, hbody, reqJson, hval]

/-- Evaluation of the Hono complete handler on the empty array. -/
theorem honoComplete_no_parts (req : Request) (o : Oracle) (k u : String)
    (hk : List.lookup "key" req.query = some k)
    (hu : List.lookup "uploadId" req.query = some u)
    (hbody : req.body = .jsonOf (.arr [])) :
    honoComplete req o = (.error (.http 400 "No parts"), []) := by
  simp [honoComplete, getQueryString, hk, hu, hbody, reqJson, partsAllValid]

/-- Evaluation of the Hono complete handler on a valid non-empty body. -/
theorem honoComplete_ok (req : Request) (o : Oracle) (elems : List Json)
    (k u : String)
    (hk : List.lookup "key" req.query = some k)
    (hu : List.lookup "uploadId" req.query = some u)
    (hbody : req.body = .jsonOf (.arr elems))
    (hval : partsAllValid elems = .ok true) (hie : elems.isEmpty = false) :
    honoComplete req o
      = (.ok (jsonResp 200 (.obj [("key", .str k)])), [.complete k u elems]) := by
  simp [honoComplete, getQueryString, hk, hu, hbody, reqJson, hval, hie]

/-- Composed dispatch for the Hono app's complete route. -/
theorem honoApp_complete (req : Request) (env : Env) (o : Oracle)
    (hm : req.method = "POST")
    (hsegs : honoSegs req.pathname = ["uploads", "complete"])
    (hb : env.bucketBound = true) (hks : env.authKey.isSome = true) :
    honoApp req env o = some (honoRun (honoComplete req o)) := by
  rw [honoApp_bound req env o hb hks, honoDispatch_complete req o hm hsegs]
  rfl

/-- Any authorized POST upload-part request whose `partNumber` query
parameter is absent or parses to `NaN` is answered 400 by the flat worker
with no backing-store call (possibly for an earlier reason: missing body,
`key` or `uploadId` also give 400 here). -/
theorem flatUploadPart_bad_num (req : Request) (o : Oracle)
    (hm : req.method = "POST")
    (hnum : List.lookup "partNumber" req.query = none ∨
      (∃ v, List.lookup "partNumber" req.query = some v ∧ jsParseInt10 v = none)) :
    ∃ r : Response, flatUploadPart req o = (some r, []) ∧ r.status = 400 := by
  rcases hbody : req.body with _ | j | raw
  · exact ⟨⟨400, errJson "No body"⟩, flatUploadPart_no_body req o hbody hm, rfl⟩
  · rcases hk : List.lookup "key" req.query with _ | k
    · exact ⟨⟨400, .text "Invalid or missing key"⟩,
        by simp [flatUploadPart, checkMethod, hm, hbody, getUrlParam, hk], rfl⟩
    rcases hu : List.lookup "uploadId" req.query with _ | u
    · exact ⟨⟨400, .text "Invalid or missing uploadId"⟩,
        by simp [flatUploadPart, checkMethod, hm, hbody, getUrlParam, hk, hu], rfl⟩
    rcases hnum with hpn | ⟨v, hpn, hparse⟩
    · exact ⟨⟨400, .text "Invalid or missing partNumber"⟩,
        by simp [flatUploadPart, checkMethod, hm, hbody, getUrlParam,
                 getUrlParamNumber, hk, hu, hpn], rfl⟩
    · exact ⟨⟨400, .text "Invalid partNumber"⟩,
        by simp [flatUploadPart, checkMethod, hm, hbody, getUrlParam,
                 getUrlParamNumber, hk, hu, hpn, hparse], rfl⟩
  · rcases hk : List.lookup "key" req.query with _ | k
    · exact ⟨⟨400, .text "Invalid or missing key"⟩,
        by simp [flatUploadPart, checkMethod, hm, hbody, getUrlParam, hk], rfl⟩
    rcases hu : List.lookup "uploadId" req.query with _ | u
    · exact ⟨⟨400, .text "Invalid or missing uploadId"⟩,
        by simp [flatUploadPart, checkMethod, hm, hbody, getUrlParam, hk, hu], rfl⟩
    rcases hnum with hpn | ⟨v, hpn, hparse⟩
    · exact ⟨⟨400, .text "Invalid or missing partNumber"⟩,
        by simp [flatUploadPart, checkMethod, hm, hbody, getUrlParam,
                 getUrlParamNumber, hk, hu, hpn], rfl⟩
    · exact ⟨⟨400, .text "Invalid partNumber"⟩,
        by simp [flatUploadPart, checkMethod, hm, hbody, getUrlParam,
                 getUrlParamNumber, hk, hu, hpn, hparse], rfl⟩

/-- With a non-absent body and all three parameters present and parseable,
the flat worker's upload-part case forwards the exact parsed integer to the
backing store and answers 200. -/
theorem flatUploadPart_forwards (req : Request) (o : Oracle)
    (k u v : String) (n : Int)
    (hm : req.method = "POST") (hbody : req.body ≠ .absent)
    (hk : List.lookup "key" req.query = some k)
    (hu : List.lookup "uploadId" req.query = some u)
    (hpn : List.lookup "partNumber" req.query = some v)
    (hparse : jsParseInt10 v = some n) :
    (flatUploadPart req o).2 = [.uploadPart k u n req.body] ∧
      ∃ r : Response, (flatUploadPart req o).1 = some r ∧ r.status = 200 := by
  rcases hb : req.body with _ | j | raw
  · exact absurd hb hbody
  · refine ⟨?_, jsonResp 200 (.obj
      [("partNumber", .num ((o.uploadPartReply k u n (.jsonOf j)).1 : Rat)),
       ("etag", .str (o.uploadPartReply k u n (.jsonOf j)).2)]), ?_, rfl⟩ <;>
      simp [flatUploadPart, checkMethod, hm, hb, getUrlParam, getUrlParamNumber,
        hk, hu, hpn, hparse, jsonResp]
  · refine ⟨?_, jsonResp 200 (.obj
      [("partNumber", .num ((o.uploadPartReply k u n (.nonJson raw)).1 : Rat)),
       ("etag", .str (o.uploadPartReply k u n (.nonJson raw)).2)]), ?_, rfl⟩ <;>
      simp [flatUploadPart, checkMethod, hm, hb, getUrlParam, getUrlParamNumber,
        hk, hu, hpn, hparse, jsonResp]

/-- Counterpart of `flatUploadPart_bad_num` for the Hono upload-part
handler. -/
theorem honoUploadPart_bad_num (req : Request) (o : Oracle)
    (hnum : List.lookup "partNumber" req.query = none ∨
      (∃ v, List.lookup "partNumber" req.query = some v ∧ jsParseInt10 v = none)) :
    ∃ m, honoUploadPart req o = (.error (.http 400 m), []) := by
  rcases hbody : req.body with _ | j | raw
  · exact ⟨"No body", honoUploadPart_no_body req o hbody⟩
  · rcases hk : List.lookup "key" req.query with _ | k
    · exact ⟨"Missing key", by simp [honoUploadPart, hbody, getQueryString, hk]⟩
    rcases hu : List.lookup "uploadId" req.query with _ | u
    · exact ⟨"Missing uploadId",
        by simp [honoUploadPart, hbody, getQueryString, hk, hu]⟩
    rcases hnum with hpn | ⟨v, hpn, hparse⟩
    · exact ⟨"Missing partNumber",
        by simp [honoUploadPart, hbody, getQueryString, getQueryNumber, hk, hu, hpn]⟩
    · exact ⟨"Invalid partNumber",
        by simp [honoUploadPart, hbody, getQueryString, getQueryNumber, hk, hu,
                 hpn, hparse]⟩
  · rcases hk : List.lookup "key" req.query with _ | k
    · exact ⟨"Missing key", by simp [honoUploadPart, hbody, getQueryString, hk]⟩
    rcases hu : List.lookup "uploadId" req.query with _ | u
    · exact ⟨"Missing uploadId",
        by simp [honoUploadPart, hbody, getQueryString, hk, hu]⟩
    rcases hnum with hpn | ⟨v, hpn, hparse⟩
    · exact ⟨"Missing partNumber",
        by simp [honoUploadPart, hbody, getQueryString, getQueryNumber, hk, hu, hpn]⟩
    · exact ⟨"Invalid partNumber",
        by simp [honoUploadPart, hbody, getQueryString, getQueryNumber, hk, hu,
                 hpn, hparse]⟩

/-- Counterpart of `flatUploadPart_forwards` for the Hono upload-part
handler. -/
theorem honoUploadPart_forwards (req : Request) (o : Oracle)
    (k u v : String) (n : Int)
    (hbody : req.body ≠ .absent)
    (hk : List.lookup "key" req.query = some k)
    (hu : List.lookup "uploadId" req.query = some u)
    (hpn : List.lookup "partNumber" req.query = some v)
    (hparse : jsParseInt10 v = some n) :
    (honoUploadPart req o).2 = [.uploadPart k u n req.body] ∧
      ∃ r : Response, (honoUploadPart req o).1 = .ok r ∧ r.status = 200 := by
  rcases hb : req.body with _ | j | raw
  · exact absurd hb hbody
  · refine ⟨?_, jsonResp 200 (.obj
      [("partNumber", .num ((o.uploadPartReply k u n (.jsonOf j)).1 : Rat)),
       ("etag", .str (o.uploadPartReply k u n (.jsonOf j)).2)]), ?_, rfl⟩ <;>
      simp [honoUploadPart, hb, getQueryString, getQueryNumber, hk, hu, hpn,
        hparse, jsonResp]
  · refine ⟨?_, jsonResp 200 (.obj
      [("partNumber", .num ((o.uploadPartReply k u n (.nonJson raw)).1 : Rat)),
       ("etag", .str (o.uploadPartReply k u n (.nonJson raw)).2)]), ?_, rfl⟩ <;>
      simp [honoUploadPart, hb, getQueryString, getQueryNumber, hk, hu, hpn,
        hparse, jsonResp]

/-- Composed dispatch for the Hono app's upload-part route. -/
theorem honoApp_uploadPart (req : Request) (env : Env) (o : Oracle)
    (hm : req.method = "POST")
    (hsegs : honoSegs req.pathname = ["uploads", "upload-part"])
    (hb : env.bucketBound = true) (hks : env.authKey.isSome = true) :
    honoApp req env o = some (honoRun (honoUploadPart req o)) := by
  rw [honoApp_bound req env o hb hks, honoDispatch_uploadPart req o hm hsegs]
  rfl

/-! ### Status and body shape of every response (for claim C5) -/

/-- The status codes the flat worker can produce. -/
def FlatStatusOk (s : Nat) : Prop :=
  s = 200 ∨ s = 400 ∨ s = 401 ∨ s = 404 ∨ s = 405 ∨ s = 500

/-- The non-success bodies the flat worker can produce: the JSON error shape
for thrown JSON errors, and plain text for the method and parameter
errors. -/
def FlatErrBodyOk (b : ResBody) : Prop :=
  (∃ m, b = errJson m) ∨ b = .text "Method not allowed" ∨
    (∃ nm, b = .text ("Invalid or missing " ++ nm)) ∨
    (∃ nm, b = .text ("Invalid " ++ nm))

/-- Shape invariant of every flat-worker response. -/
def FlatRespOk (r : Response) : Prop :=
  FlatStatusOk r.status ∧ (r.status ≠ 200 → FlatErrBodyOk r.body)

theorem flatStatus_200 : FlatStatusOk 200 := Or.inl rfl
theorem flatStatus_400 : FlatStatusOk 400 := Or.inr (Or.inl rfl)
theorem flatStatus_401 : FlatStatusOk 401 := Or.inr (Or.inr (Or.inl rfl))
theorem flatStatus_404 : FlatStatusOk 404 := Or.inr (Or.inr (Or.inr (Or.inl rfl)))
theorem flatStatus_405 : FlatStatusOk 405 :=
  Or.inr (Or.inr (Or.inr (Or.inr (Or.inl rfl))))
theorem flatStatus_500 : FlatStatusOk 500 :=
  Or.inr (Or.inr (Or.inr (Or.inr (Or.inr rfl))))

theorem checkMethod_error (req : Request) (m : String) (r : Response)
    (h : checkMethod req m = .error r) : r = ⟨405, .text "Method not allowed"⟩ := by
  unfold checkMethod at h
  split at h
  · exact (Except.error.inj h).symm
  · exact Except.noConfusion h

theorem getUrlParam_error (req : Request) (name : String) (r : Response)
    (h : getUrlParam req name = .error r) :
    r = ⟨400, .text ("Invalid or missing " ++ name)⟩ := by
  unfold getUrlParam at h
  split at h
  · exact (Except.error.inj h).symm
  · exact Except.noConfusion h

theorem getUrlParamNumber_error (req : Request) (name : String) (r : Response)
    (h : getUrlParamNumber req name = .error r) :
    r.status = 400 ∧ ((∃ nm, r.body = .text ("Invalid or missing " ++ nm)) ∨
      (∃ nm, r.body = .text ("Invalid " ++ nm))) := by
  unfold getUrlParamNumber at h
  split at h
  next r' heq =>
    rw [(Except.error.inj h).symm.trans (getUrlParam_error req name r' heq)]
    exact ⟨rfl, Or.inl ⟨name, rfl⟩⟩
  next v heq =>
    split at h
    · rw [(Except.error.inj h).symm]
      exact ⟨rfl, Or.inr ⟨name, rfl⟩⟩
    · exact Except.noConfusion h

theorem flatStartUpload_shape (req : Request) (o : Oracle) (r : Response)
    (h : (flatStartUpload req o).1 = some r) : FlatRespOk r := by
  unfold flatStartUpload at h
  split at h
  next r' heq =>
    simp at h
    subst h
    rw [checkMethod_error req "POST" r' heq]
    exact ⟨flatStatus_405, fun _ => Or.inr (Or.inl rfl)⟩
  next =>
    split at h
    next r' heq =>
      simp at h
      subst h
      rw [getUrlParam_error req "key" r' heq]
      exact ⟨flatStatus_400, fun _ => Or.inr (Or.inr (Or.inl ⟨"key", rfl⟩))⟩
    next key heq =>
      simp at h
      subst h
      exact ⟨Or.inl rfl, fun hne => absurd rfl hne⟩

theorem flatUploadPart_shape (req : Request) (o : Oracle) (r : Response)
    (h : (flatUploadPart req o).1 = some r) : FlatRespOk r := by
  unfold flatUploadPart at h
  split at h
  next r' heq =>
    simp at h
    subst h
    rw [checkMethod_error req "POST" r' heq]
    exact ⟨flatStatus_405, fun _ => Or.inr (Or.inl rfl)⟩
  next =>
    split at h
    · simp at h
      subst h
      exact ⟨flatStatus_400, fun _ => Or.inl ⟨"No body", rfl⟩⟩
    next =>
      split at h
      next r' heq =>
        simp at h
        subst h
        rw [getUrlParam_error req "key" r' heq]
        exact ⟨flatStatus_400, fun _ => Or.inr (Or.inr (Or.inl ⟨"key", rfl⟩))⟩
      next =>
        split at h
        next r' heq =>
          simp at h
          subst h
          rw [getUrlParam_error req "uploadId" r' heq]
          exact ⟨flatStatus_400, fun _ => Or.inr (Or.inr (Or.inl ⟨"uploadId", rfl⟩))⟩
        next =>
          split at h
          next r' heq =>
            simp at h
            subst h
            obtain ⟨hst, hbody⟩ := getUrlParamNumber_error req "partNumber" r' heq
            exact ⟨Or.inr (Or.inl hst), fun _ => by
              rcases hbody with ⟨nm, hb⟩ | ⟨nm, hb⟩
              · exact Or.inr (Or.inr (Or.inl ⟨nm, hb⟩))
              · exact Or.inr (Or.inr (Or.inr ⟨nm, hb⟩))⟩
          next =>
            simp at h
            subst h
            exact ⟨Or.inl rfl, fun hne => absurd rfl hne⟩

theorem flatComplete_shape (req : Request) (o : Oracle) (r : Response)
    (h : (flatComplete req o).1 = some r) : FlatRespOk r := by
  unfold flatComplete at h
  split at h
  next r' heq =>
    simp at h
    subst h
    rw [checkMethod_error req "POST" r' heq]
    exact ⟨flatStatus_405, fun _ => Or.inr (Or.inl rfl)⟩
  next =>
    split at h
    next r' heq =>
      simp at h
      subst h
      rw [getUrlParam_error req "key" r' heq]
      exact ⟨flatStatus_400, fun _ => Or.inr (Or.inr (Or.inl ⟨"key", rfl⟩))⟩
    next =>
      split at h
      next r' heq =>
        simp at h
        subst h
        rw [getUrlParam_error req "uploadId" r' heq]
        exact ⟨flatStatus_400, fun _ => Or.inr (Or.inr (Or.inl ⟨"uploadId", rfl⟩))⟩
      next =>
        split at h
        · simp at h
        next =>
          split at h
          next =>
            split at h
            · simp at h
            · simp at h
              subst h
              exact ⟨flatStatus_400, fun _ => Or.inl ⟨"Invalid parts", rfl⟩⟩
            · split at h
              · simp at h
                subst h
                exact ⟨flatStatus_400, fun _ => Or.inl ⟨"No parts", rfl⟩⟩
              · simp at h
                subst h
                exact ⟨Or.inl rfl, fun hne => absurd rfl hne⟩
          next =>
            simp at h
            subst h
            exact ⟨flatStatus_400, fun _ => Or.inl ⟨"Invalid parts", rfl⟩⟩

theorem flatDownload_shape (req : Request) (o : Oracle) (r : Response)
    (h : (flatDownload req o).1 = some r) : FlatRespOk r := by
  unfold flatDownload at h
  split at h
  next r' heq =>
    simp at h
    subst h
    rw [checkMethod_error req "GET" r' heq]
    exact ⟨flatStatus_405, fun _ => Or.inr (Or.inl rfl)⟩
  next =>
    split at h
    next r' heq =>
      simp at h
      subst h
      rw [getUrlParam_error req "key" r' heq]
      exact ⟨flatStatus_400, fun _ => Or.inr (Or.inr (Or.inl ⟨"key", rfl⟩))⟩
    next =>
      split at h
      · simp at h
        subst h
        exact ⟨flatStatus_404, fun _ => Or.inl ⟨"Not found", rfl⟩⟩
      · simp at h
        subst h
        exact ⟨Or.inl rfl, fun hne => absurd rfl hne⟩

theorem flatStats_shape (req : Request) (o : Oracle) (r : Response)
    (h : (flatStats req o).1 = some r) : FlatRespOk r := by
  unfold flatStats at h
  split at h
  next r' heq =>
    simp at h
    subst h
    rw [checkMethod_error req "GET" r' heq]
    exact ⟨flatStatus_405, fun _ => Or.inr (Or.inl rfl)⟩
  next =>
    split at h
    next r' heq =>
      simp at h
      subst h
      rw [getUrlParam_error req "key" r' heq]
      exact ⟨flatStatus_400, fun _ => Or.inr (Or.inr (Or.inl ⟨"key", rfl⟩))⟩
    next =>
      split at h
      · simp at h
        subst h
        exact ⟨flatStatus_404, fun _ => Or.inl ⟨"Not found", rfl⟩⟩
      · simp at h
        subst h
        exact ⟨Or.inl rfl, fun hne => absurd rfl hne⟩

theorem handleRequest_shape (req : Request) (env : Env) (o : Oracle) (r : Response)
    (h : (handleRequest req env o).1 = some r) : FlatRespOk r := by
  unfold handleRequest at h
  split at h
  · simp at h
    subst h
    exact ⟨flatStatus_401, fun _ => Or.inl ⟨"Unauthorized", rfl⟩⟩
  · split at h
    · simp at h
      subst h
      exact ⟨flatStatus_404, fun _ => Or.inl ⟨"Not found", rfl⟩⟩
    next seg =>
      split at h
      · exact flatStartUpload_shape req o r h
      · exact flatUploadPart_shape req o r h
      · exact flatComplete_shape req o r h
      · exact flatDownload_shape req o r h
      · exact flatStats_shape req o r h
      · simp at h
        subst h
        exact ⟨flatStatus_404, fun _ => Or.inl ⟨"Not found", rfl⟩⟩

/-- Every response of the flat worker satisfies the status and body shape
invariant. -/
theorem workerFetch_shape (req : Request) (env : Env) (o : Oracle) :
    FlatRespOk (workerFetch req env o).1 := by
  rcases hh : handleRequest req env o with ⟨ro, t⟩
  cases ro with
  | none =>
    have hw : workerFetch req env o = (⟨500, errJson "Internal server error"⟩, t) := by
      simp [workerFetch, hh]
    rw [hw]
    exact ⟨flatStatus_500, fun _ => Or.inl ⟨"Internal server error", rfl⟩⟩
  | some r =>
    rw [workerFetch_of_handler_some req env o r t hh]
    exact handleRequest_shape req env o r (by rw [hh])

/-- The status codes the Hono app can produce. -/
def HonoStatusOk (s : Nat) : Prop :=
  s = 200 ∨ s = 204 ∨ s = 400 ∨ s = 404 ∨ s = 500

/-- Shape invariant of every Hono response: statuses from the app's set, and
every non-2xx body is the JSON error shape. -/
def HonoRespOk (r : Response) : Prop :=
  HonoStatusOk r.status ∧
    (r.status ≠ 200 → r.status ≠ 204 → ∃ m, r.body = errJson m)

theorem getQueryString_error (req : Request) (name : String) (e : HErr)
    (h : getQueryString req name = .error e) :
    e = .http 400 ("Missing " ++ name) := by
  unfold getQueryString at h
  split at h
  · exact (Except.error.inj h).symm
  · exact Except.noConfusion h

theorem getQueryNumber_error (req : Request) (name : String) (e : HErr)
    (h : getQueryNumber req name = .error e) : ∃ msg, e = .http 400 msg := by
  unfold getQueryNumber at h
  split at h
  next e' heq =>
    exact ⟨_, (Except.error.inj h).symm.trans (getQueryString_error req name e' heq)⟩
  next v heq =>
    split at h
    · exact ⟨_, (Except.error.inj h).symm⟩
    · exact Except.noConfusion h

/-- Outcome invariant of one Hono route handler: successful responses have
status 200 or 204 and thrown `HTTPException`s carry status 400 or 404. -/
def HonoOutcomeOk (res : HonoResult) : Prop :=
  (∀ r, res.1 = .ok r → r.status = 200 ∨ r.status = 204) ∧
  (∀ s m, res.1 = .error (.http s m) → s = 400 ∨ s = 404)

theorem honoRun_shape (res : HonoResult) (hres : HonoOutcomeOk res) :
    HonoRespOk (honoRun res).1 := by
  rcases res with ⟨e, t⟩
  cases e with
  | ok r =>
    rcases hres.1 r rfl with h200 | h204
    · exact ⟨Or.inl h200, fun hne _ => absurd h200 hne⟩
    · exact ⟨Or.inr (Or.inl h204), fun _ hne => absurd h204 hne⟩
  | error err =>
    cases err with
    | http s m =>
      rcases hres.2 s m rfl with h | h
      · exact ⟨Or.inr (Or.inr (Or.inl h)), fun _ _ => ⟨m, rfl⟩⟩
      · exact ⟨Or.inr (Or.inr (Or.inr (Or.inl h))), fun _ _ => ⟨m, rfl⟩⟩
    | exn =>
      exact ⟨Or.inr (Or.inr (Or.inr (Or.inr rfl))),
        fun _ _ => ⟨"Internal Server Error", rfl⟩⟩

theorem honoCreate_outcome (req : Request) (o : Oracle) :
    HonoOutcomeOk (honoCreate req o) := by
  constructor
  · intro r h
    unfold honoCreate at h
    split at h
    · exact Except.noConfusion h
    · exact Or.inl (by rw [← Except.ok.inj h]; rfl)
  · intro s m h
    unfold honoCreate at h
    split at h
    next e heq =>
      have h2 := (getQueryString_error req "key" e heq).symm.trans (Except.error.inj h)
      exact Or.inl ((HErr.http.inj h2).1.symm)
    · exact Except.noConfusion h

theorem honoUploadPart_outcome (req : Request) (o : Oracle) :
    HonoOutcomeOk (honoUploadPart req o) := by
  constructor
  · intro r h
    unfold honoUploadPart at h
    split at h
    · exact Except.noConfusion h
    · split at h
      · exact Except.noConfusion h
      · split at h
        · exact Except.noConfusion h
        · split at h
          · exact Except.noConfusion h
          · exact Or.inl (by rw [← Except.ok.inj h]; rfl)
  · intro s m h
    unfold honoUploadPart at h
    split at h
    · exact Or.inl ((HErr.http.inj (Except.error.inj h)).1.symm)
    · split at h
      next e heq =>
        have h2 := (getQueryString_error req "key" e heq).symm.trans (Except.error.inj h)
        exact Or.inl ((HErr.http.inj h2).1.symm)
      · split at h
        next e heq =>
          have h2 := (getQueryString_error req "uploadId" e heq).symm.trans
            (Except.error.inj h)
          exact Or.inl ((HErr.http.inj h2).1.symm)
        · split at h
          next e heq =>
            rcases getQueryNumber_error req "partNumber" e heq with ⟨msg, hmsg⟩
            have h2 := hmsg.symm.trans (Except.error.inj h)
            exact Or.inl ((HErr.http.inj h2).1.symm)
          · exact Except.noConfusion h

theorem honoComplete_outcome (req : Request) (o : Oracle) :
    HonoOutcomeOk (honoComplete req o) := by
  constructor
  · intro r h
    unfold honoComplete at h
    split at h
    · exact Except.noConfusion h
    · split at h
      · exact Except.noConfusion h
      · split at h
        · exact Except.noConfusion h
        · split at h
          · split at h
            · exact Except.noConfusion h
            · exact Except.noConfusion h
            · split at h
              · exact Except.noConfusion h
              · exact Or.inl (by rw [← Except.ok.inj h]; rfl)
          · exact Except.noConfusion h
  · intro s m h
    unfold honoComplete at h
    split at h
    next e heq =>
      have h2 := (getQueryString_error req "key" e heq).symm.trans (Except.error.inj h)
      exact Or.inl ((HErr.http.inj h2).1.symm)
    · split at h
      next e heq =>
        have h2 := (getQueryString_error req "uploadId" e heq).symm.trans
          (Except.error.inj h)
        exact Or.inl ((HErr.http.inj h2).1.symm)
      · split at h
        · exact HErr.noConfusion (Except.error.inj h)
        · split at h
          · split at h
            · exact HErr.noConfusion (Except.error.inj h)
            · exact Or.inl ((HErr.http.inj (Except.error.inj h)).1.symm)
            · split at h
              · exact Or.inl ((HErr.http.inj (Except.error.inj h)).1.symm)
              · exact Except.noConfusion h
          · exact Or.inl ((HErr.http.inj (Except.error.inj h)).1.symm)

theorem honoList_outcome (req : Request) (o : Oracle) :
    HonoOutcomeOk (honoList req o) := by
  constructor
  · intro r h
    exact Or.inl (by rw [← Except.ok.inj h]; rfl)
  · intro s m h
    exact Except.noConfusion h

theorem honoGet_outcome (k : String) (o : Oracle) :
    HonoOutcomeOk (honoGet k o) := by
  constructor
  · intro r h
    unfold honoGet at h
    split at h
    · exact Except.noConfusion h
    · exact Or.inl (by rw [← Except.ok.inj h])
  · intro s m h
    unfold honoGet at h
    split at h
    · exact Or.inr ((HErr.http.inj (Except.error.inj h)).1.symm)
    · exact Except.noConfusion h

theorem honoStats_outcome (k : String) (o : Oracle) :
    HonoOutcomeOk (honoStats k o) := by
  constructor
  · intro r h
    unfold honoStats at h
    split at h
    · exact Except.noConfusion h
    · exact Or.inl (by rw [← Except.ok.inj h]; rfl)
  · intro s m h
    unfold honoStats at h
    split at h
    · exact Or.inr ((HErr.http.inj (Except.error.inj h)).1.symm)
    · exact Except.noConfusion h

theorem honoDelete_outcome (k : String) (o : Oracle) :
    HonoOutcomeOk (honoDelete k o) := by
  constructor
  · intro r h
    exact Or.inr (by rw [← Except.ok.inj h])
  · intro s m h
    exact Except.noConfusion h

theorem honoDispatch_outcome (req : Request) (o : Oracle) (res : HonoResult)
    (h : honoDispatch req o = some res) : HonoOutcomeOk res := by
  unfold honoDispatch at h
  split at h <;>
    first
    | exact Option.noConfusion h
    | exact (Option.some.inj h) ▸ honoCreate_outcome req o
    | exact (Option.some.inj h) ▸ honoUploadPart_outcome req o
    | exact (Option.some.inj h) ▸ honoComplete_outcome req o
    | exact (Option.some.inj h) ▸ honoList_outcome req o
    | (split at h <;>
        first
        | exact Option.noConfusion h
        | exact (Option.some.inj h) ▸ honoGet_outcome _ o
        | exact (Option.some.inj h) ▸ honoStats_outcome _ o
        | exact (Option.some.inj h) ▸ honoDelete_outcome _ o)

/-- Every response served by the Hono app's own code satisfies the status
and body shape invariant. -/
theorem honoApp_shape (req : Request) (env : Env) (o : Oracle)
    (rt : Response × List StoreCall) (h : honoApp req env o = some rt) :
    HonoRespOk rt.1 := by
  unfold honoApp at h
  split at h
  · rw [← Option.some.inj h]
    exact ⟨Or.inr (Or.inr (Or.inr (Or.inr rfl))), fun _ _ => ⟨_, rfl⟩⟩
  · split at h
    · rw [← Option.some.inj h]
      exact ⟨Or.inr (Or.inr (Or.inr (Or.inr rfl))), fun _ _ => ⟨_, rfl⟩⟩
    · rcases hd : honoDispatch req o with _ | res
      · rw [hd] at h
        exact Option.noConfusion h
      · rw [hd] at h
        rw [← Option.some.inj h]
        exact honoRun_shape res (honoDispatch_outcome req o res hd)

/-! ### Claim theorems -/

/-- C1: the claim says every request with a missing or wrong `Authorization`
header is answered 401 with no backing-store call.  The Hono app
(`src/unnamed/part_000`) violates this: it performs no `Authorization` check
at all (its middleware only verifies that the `AUTH_KEY` secret is
configured, never comparing it with the request), so a request carrying no
`Authorization` header is served normally and a backing-store session is
created.  The flat worker (`src/worker/src/index.ts`) does enforce the
claim. -/
theorem unauthenticated_request_reaches_backing_store :
    honoApp ⟨"POST", "/uploads/create", [("key", "a.txt")], none, .absent⟩
        envEx oracleEx
      = some (jsonResp 200 (.obj [("key", .str "a.txt"), ("uploadId", .str "uid-1")]),
              [.createMultipartUpload "a.txt"]) := rfl

/-- C10: the gateway is deterministic — both handlers are pure functions of
the request, the environment (configured secret and bindings) and the
backing store's replies, with no other state read or written; two
invocations agreeing on these inputs produce identical responses and
identical backing-store call sequences. -/
theorem gateway_deterministic (r₁ r₂ : Request) (e₁ e₂ : Env) (o₁ o₂ : Oracle)
    (hr : r₁ = r₂) (he : e₁ = e₂) (ho : o₁ = o₂) :
    workerFetch r₁ e₁ o₁ = workerFetch r₂ e₂ o₂ ∧
      honoApp r₁ e₁ o₁ = honoApp r₂ e₂ o₂ := by
  subst hr; subst he; subst ho; exact ⟨rfl, rfl⟩

theorem gateway_deterministic_witness :
    workerFetch ⟨"GET", "/stats", [("key", "a.txt")], some "secret", .absent⟩ envEx oracleEx
        = workerFetch ⟨"GET", "/stats", [("key", "a.txt")], some "secret", .absent⟩ envEx oracleEx ∧
      honoApp ⟨"GET", "/stats", [("key", "a.txt")], some "secret", .absent⟩ envEx oracleEx
        = honoApp ⟨"GET", "/stats", [("key", "a.txt")], some "secret", .absent⟩ envEx oracleEx :=
  gateway_deterministic _ _ _ _ _ _ rfl rfl rfl

/-- C2: a complete-upload request whose JSON body is the empty array never
reaches the backing store (its call trace is empty, so the finalize
operation is never invoked), and — beyond the auth and method gates — it is
answered 400: on the flat worker whenever the credential is valid and the
method is POST, and on the Hono app whenever the route matches and the
bindings are configured. -/
theorem complete_upload_empty_parts_rejected
    (req : Request) (env : Env) (o : Oracle)
    (hbody : req.body = .jsonOf (.arr [])) :
    (firstPath req.pathname = some "complete-upload" →
       (workerFetch req env o).2 = [] ∧
       (flatAuthOk req env = true → req.method = "POST" →
          (workerFetch req env o).1.status = 400)) ∧
    (req.method = "POST" → honoSegs req.pathname = ["uploads", "complete"] →
       env.bucketBound = true → env.authKey.isSome = true →
       ∃ resp, honoApp req env o = some (resp, []) ∧ resp.status = 400) := by
  constructor
  · intro hpath
    constructor
    · cases hA : flatAuthOk req env with
      | false => rw [workerFetch_unauth req env o hA]
      | true =>
        rw [workerFetch_trace, handleRequest_complete req env o hA hpath,
            flatComplete_trace_empty req o hbody]
    · intro hA hm
      rcases flatComplete_empty req o hbody hm with ⟨r, hr, hst⟩
      have h := workerFetch_of_handler_some req env o r []
        ((handleRequest_complete req env o hA hpath).trans hr)
      rw [h]
      exact hst
  · intro hm hsegs hb hk
    rcases honoComplete_empty req o hbody with ⟨m, hcomp⟩
    refine ⟨⟨400, errJson m⟩, ?_, rfl⟩
    rw [honoApp_bound req env o hb hk, honoDispatch_complete req o hm hsegs, hcomp]
    rfl

theorem complete_upload_empty_parts_rejected_witness :
    ((workerFetch ⟨"POST", "/complete-upload", [("key", "a.txt"), ("uploadId", "u1")],
          some "secret", .jsonOf (.arr [])⟩ envEx oracleEx).2 = [] ∧
       (workerFetch ⟨"POST", "/complete-upload", [("key", "a.txt"), ("uploadId", "u1")],
          some "secret", .jsonOf (.arr [])⟩ envEx oracleEx).1.status = 400) ∧
    (∃ resp, honoApp ⟨"POST", "/uploads/complete", [("key", "a.txt"), ("uploadId", "u1")],
          some "secret", .jsonOf (.arr [])⟩ envEx oracleEx = some (resp, []) ∧
       resp.status = 400) := by
  constructor
  · have h := (complete_upload_empty_parts_rejected
      ⟨"POST", "/complete-upload", [("key", "a.txt"), ("uploadId", "u1")],
        some "secret", .jsonOf (.arr [])⟩ envEx oracleEx rfl).1 rfl
    exact ⟨h.1, h.2 rfl rfl⟩
  · exact (complete_upload_empty_parts_rejected
      ⟨"POST", "/uploads/complete", [("key", "a.txt"), ("uploadId", "u1")],
        some "secret", .jsonOf (.arr [])⟩ envEx oracleEx rfl).2 rfl rfl rfl rfl

/-- C3: an upload-part request with no request body never reaches the backing
store (its call trace is empty, so neither the session resume nor the part
upload happens), and — beyond the auth and method gates — it is answered 400
`{"error": "No body"}`: on the flat worker whenever the credential is valid
and the method is POST, and on the Hono app whenever the route matches and
the bindings are configured. -/
theorem upload_part_no_body_rejected
    (req : Request) (env : Env) (o : Oracle)
    (hbody : req.body = .absent) :
    (firstPath req.pathname = some "upload-part" →
       (workerFetch req env o).2 = [] ∧
       (flatAuthOk req env = true → req.method = "POST" →
          (workerFetch req env o).1 = ⟨400, errJson "No body"⟩)) ∧
    (req.method = "POST" → honoSegs req.pathname = ["uploads", "upload-part"] →
       env.bucketBound = true → env.authKey.isSome = true →
       honoApp req env o = some (⟨400, errJson "No body"⟩, [])) := by
  constructor
  · intro hpath
    constructor
    · cases hA : flatAuthOk req env with
      | false => rw [workerFetch_unauth req env o hA]
      | true =>
        rw [workerFetch_trace, handleRequest_uploadPart req env o hA hpath,
            flatUploadPart_trace_no_body req o hbody]
    · intro hA hm
      have h := workerFetch_of_handler_some req env o ⟨400, errJson "No body"⟩ []
        ((handleRequest_uploadPart req env o hA hpath).trans
          (flatUploadPart_no_body req o hbody hm))
      rw [h]
  · intro hm hsegs hb hk
    rw [honoApp_bound req env o hb hk, honoDispatch_uploadPart req o hm hsegs,
        honoUploadPart_no_body req o hbody]
    rfl

theorem upload_part_no_body_rejected_witness :
    (workerFetch ⟨"POST", "/upload-part",
        [("key", "a.txt"), ("uploadId", "u1"), ("partNumber", "1")],
        some "secret", .absent⟩ envEx oracleEx
      = (⟨400, errJson "No body"⟩, [])) ∧
    honoApp ⟨"POST", "/uploads/upload-part",
        [("key", "a.txt"), ("uploadId", "u1"), ("partNumber", "1")],
        some "secret", .absent⟩ envEx oracleEx
      = some (⟨400, errJson "No body"⟩, []) := by
  constructor
  · have h := (upload_part_no_body_rejected ⟨"POST", "/upload-part",
        [("key", "a.txt"), ("uploadId", "u1"), ("partNumber", "1")],
        some "secret", .absent⟩ envEx oracleEx rfl).1 rfl
    have h1 := h.2 rfl rfl
    have h2 := h.1
    rcases hres : workerFetch ⟨"POST", "/upload-part",
        [("key", "a.txt"), ("uploadId", "u1"), ("partNumber", "1")],
        some "secret", .absent⟩ envEx oracleEx with ⟨r, t⟩
    rw [hres] at h1 h2
    simp at h1 h2
    rw [h1, h2]
  · exact (upload_part_no_body_rejected ⟨"POST", "/uploads/upload-part",
        [("key", "a.txt"), ("uploadId", "u1"), ("partNumber", "1")],
        some "secret", .absent⟩ envEx oracleEx rfl).2 rfl rfl rfl rfl

/-- C4 counterexample: the claim says a start-upload request whose key is
absent or empty is rejected without any backing-store call; but neither
implementation validates non-emptiness.  With `?key=` (present, empty value)
the flat worker calls `createMultipartUpload("")` and answers 200. -/
theorem start_upload_empty_key_not_rejected :
    workerFetch ⟨"POST", "/start-upload", [("key", "")], some "secret", .absent⟩
        envEx oracleEx
      = (jsonResp 200 (.obj [("key", .str ""), ("uploadId", .str "uid-1")]),
         [.createMultipartUpload ""]) := rfl

/-- C4 amended: start-upload validates only the presence of the `key` query
parameter, not its non-emptiness.  An authorized POST start-upload request
with `key` absent is rejected 400 with no backing-store call; whenever `key`
is present — even as the empty string — `createMultipartUpload` is called
with exactly that key.  Likewise for the Hono app's `/uploads/create` with
bindings configured. -/
theorem start_upload_key_presence_gate
    (req : Request) (env : Env) (o : Oracle) :
    (firstPath req.pathname = some "start-upload" → flatAuthOk req env = true →
       req.method = "POST" →
       (List.lookup "key" req.query = none →
          workerFetch req env o = (⟨400, .text "Invalid or missing key"⟩, [])) ∧
       (∀ k, List.lookup "key" req.query = some k →
          (workerFetch req env o).2 = [.createMultipartUpload k])) ∧
    (req.method = "POST" → honoSegs req.pathname = ["uploads", "create"] →
       env.bucketBound = true → env.authKey.isSome = true →
       (List.lookup "key" req.query = none →
          honoApp req env o = some (⟨400, errJson "Missing key"⟩, [])) ∧
       (∀ k, List.lookup "key" req.query = some k →
          ∃ resp, honoApp req env o = some (resp, [.createMultipartUpload k]))) := by
  constructor
  · intro hpath hA hm
    constructor
    · intro hk
      exact workerFetch_of_handler_some req env o _ _
        ((handleRequest_start req env o hA hpath).trans
          (by simp [flatStartUpload, checkMethod, hm, getUrlParam, hk]))
    · intro k hk
      rw [workerFetch_trace, handleRequest_start req env o hA hpath]
      simp [flatStartUpload, checkMethod, hm, getUrlParam, hk]
  · intro hm hsegs hb hks
    constructor
    · intro hk
      rw [honoApp_bound req env o hb hks, honoDispatch_create req o hm hsegs]
      simp [honoCreate, getQueryString, hk, honoRun]
    · intro k hk
      refine ⟨jsonResp 200 (.obj [("key", .str (o.createReply k).1),
        ("uploadId", .str (o.createReply k).2)]), ?_⟩
      rw [honoApp_bound req env o hb hks, honoDispatch_create req o hm hsegs]
      simp [honoCreate, getQueryString, hk, honoRun]

theorem start_upload_key_presence_gate_witness :
    ((workerFetch ⟨"POST", "/start-upload", [], some "secret", .absent⟩
        envEx oracleEx = (⟨400, .text "Invalid or missing key"⟩, [])) ∧
      (workerFetch ⟨"POST", "/start-upload", [("key", "a.txt")], some "secret", .absent⟩
        envEx oracleEx).2 = [.createMultipartUpload "a.txt"]) ∧
    ((honoApp ⟨"POST", "/uploads/create", [], none, .absent⟩ envEx oracleEx
        = some (⟨400, errJson "Missing key"⟩, [])) ∧
      ∃ resp, honoApp ⟨"POST", "/uploads/create", [("key", "a.txt")], none, .absent⟩
        envEx oracleEx = some (resp, [.createMultipartUpload "a.txt"])) := by
  refine ⟨⟨?_, ?_⟩, ?_, ?_⟩
  · exact ((start_upload_key_presence_gate ⟨"POST", "/start-upload", [], some "secret",
      .absent⟩ envEx oracleEx).1 rfl rfl rfl).1 rfl
  · exact ((start_upload_key_presence_gate ⟨"POST", "/start-upload", [("key", "a.txt")],
      some "secret", .absent⟩ envEx oracleEx).1 rfl rfl rfl).2 "a.txt" rfl
  · exact ((start_upload_key_presence_gate ⟨"POST", "/uploads/create", [], none,
      .absent⟩ envEx oracleEx).2 rfl rfl rfl rfl).1 rfl
  · exact ((start_upload_key_presence_gate ⟨"POST", "/uploads/create", [("key", "a.txt")],
      none, .absent⟩ envEx oracleEx).2 rfl rfl rfl rfl).2 "a.txt" rfl

/-- C6 counterexample: the claim says a completion body whose elements do not
carry an integer `partNumber` is answered 400 without a backing-store call;
but the code only checks `typeof partNumber === 'number'`, so the
non-integer `partNumber` 3/2 passes validation, the finalize call is made
and the response is 200. -/
theorem complete_upload_fractional_part_number_forwarded :
    workerFetch ⟨"POST", "/complete-upload", [("key", "a.txt"), ("uploadId", "u1")],
        some "secret",
        .jsonOf (.arr [.obj [("partNumber", .num (3 / 2)), ("etag", .str "E1")]])⟩
        envEx oracleEx
      = (jsonResp 200 (.obj [("key", .str "a.txt")]),
         [.complete "a.txt" "u1"
            [.obj [("partNumber", .num (3 / 2)), ("etag", .str "E1")]]]) := rfl

/-- C6 amended: for every authorized POST complete-upload request with `key`
and `uploadId` present whose body parses as JSON `j`: if `j` is not an array,
or is an array some element of which fails the element check (a `partNumber`
of JavaScript number type — not necessarily an integer — and a string
`etag`; the check throws on a `null` element, which yields 500 instead), the
response is 400 `{"error": "Invalid parts"}` with no backing-store call; if
`j` is the empty array the response is 400 `{"error": "No parts"}` with no
backing-store call.  In particular `[{"partNumber": "x", "etag": "E1"}]`
yields 400 `{"error": "Invalid parts"}`.  Likewise on the Hono app. -/
theorem complete_upload_shape_validation
    (req : Request) (env : Env) (o : Oracle) (j : Json) (k u : String)
    (hbody : req.body = .jsonOf j) (hm : req.method = "POST")
    (hk : List.lookup "key" req.query = some k)
    (hu : List.lookup "uploadId" req.query = some u) :
    (firstPath req.pathname = some "complete-upload" → flatAuthOk req env = true →
       ((∀ elems, j ≠ .arr elems) →
          workerFetch req env o = (⟨400, errJson "Invalid parts"⟩, [])) ∧
       (∀ elems, j = .arr elems → partsAllValid elems = .ok false →
          workerFetch req env o = (⟨400, errJson "Invalid parts"⟩, [])) ∧
       (j = .arr [] → workerFetch req env o = (⟨400, errJson "No parts"⟩, []))) ∧
    (honoSegs req.pathname = ["uploads", "complete"] →
       env.bucketBound = true → env.authKey.isSome = true →
       ((∀ elems, j ≠ .arr elems) →
          honoApp req env o = some (⟨400, errJson "Invalid parts"⟩, [])) ∧
       (∀ elems, j = .arr elems → partsAllValid elems = .ok false →
          honoApp req env o = some (⟨400, errJson "Invalid parts"⟩, [])) ∧
       (j = .arr [] → honoApp req env o = some (⟨400, errJson "No parts"⟩, []))) := by
  constructor
  · intro hpath hA
    refine ⟨?_, ?_, ?_⟩
    · intro hne
      exact workerFetch_complete_eq req env o _ _ hA hpath
        (flatComplete_not_arr req o j k u hm hk hu hbody hne)
    · rintro elems rfl hval
      exact workerFetch_complete_eq req env o _ _ hA hpath
        (flatComplete_invalid req o elems k u hm hk hu hbody hval)
    · rintro rfl
      exact workerFetch_complete_eq req env o _ _ hA hpath
        (flatComplete_no_parts req o k u hm hk hu hbody)
  · intro hsegs hb hks
    have happ := honoApp_complete req env o hm hsegs hb hks
    refine ⟨?_, ?_, ?_⟩
    · intro hne
      rw [happ, honoComplete_not_arr req o j k u hk hu hbody hne]
      rfl
    · rintro elems rfl hval
      rw [happ, honoComplete_invalid req o elems k u hk hu hbody hval]
      rfl
    · rintro rfl
      rw [happ, honoComplete_no_parts req o k u hk hu hbody]
      rfl

theorem complete_upload_shape_validation_witness :
    (workerFetch ⟨"POST", "/complete-upload", [("key", "a.txt"), ("uploadId", "u1")],
        some "secret", .jsonOf (.arr [.obj [("partNumber", .str "x"), ("etag", .str "E1")]])⟩
        envEx oracleEx = (⟨400, errJson "Invalid parts"⟩, [])) ∧
    honoApp ⟨"POST", "/uploads/complete", [("key", "a.txt"), ("uploadId", "u1")],
        some "secret", .jsonOf (.arr [.obj [("partNumber", .str "x"), ("etag", .str "E1")]])⟩
        envEx oracleEx = some (⟨400, errJson "Invalid parts"⟩, []) := by
  constructor
  · exact (((complete_upload_shape_validation
      ⟨"POST", "/complete-upload", [("key", "a.txt"), ("uploadId", "u1")],
        some "secret", .jsonOf (.arr [.obj [("partNumber", .str "x"), ("etag", .str "E1")]])⟩
      envEx oracleEx _ "a.txt" "u1" rfl rfl rfl rfl).1 rfl rfl).2.1
      [.obj [("partNumber", .str "x"), ("etag", .str "E1")]] rfl rfl)
  · exact (((complete_upload_shape_validation
      ⟨"POST", "/uploads/complete", [("key", "a.txt"), ("uploadId", "u1")],
        some "secret", .jsonOf (.arr [.obj [("partNumber", .str "x"), ("etag", .str "E1")]])⟩
      envEx oracleEx _ "a.txt" "u1" rfl rfl rfl rfl).2 rfl rfl rfl).2.1
      [.obj [("partNumber", .str "x"), ("etag", .str "E1")]] rfl rfl)

/-- C9: a completion body that passes the shape check is forwarded to the
backing store's finalize call exactly as received — the same list, element
for element, in the given order, with no sorting by `partNumber`, no
deduplication and no positivity check (the witness instantiates this with a
list containing duplicate, zero, negative and non-ascending part numbers). -/
theorem complete_upload_forwards_parts_verbatim
    (req : Request) (env : Env) (o : Oracle) (elems : List Json) (k u : String)
    (hbody : req.body = .jsonOf (.arr elems)) (hm : req.method = "POST")
    (hk : List.lookup "key" req.query = some k)
    (hu : List.lookup "uploadId" req.query = some u)
    (hvalid : partsAllValid elems = .ok true) (hne : elems ≠ []) :
    (firstPath req.pathname = some "complete-upload" → flatAuthOk req env = true →
       workerFetch req env o
         = (jsonResp 200 (.obj [("key", .str k)]), [.complete k u elems])) ∧
    (honoSegs req.pathname = ["uploads", "complete"] →
       env.bucketBound = true → env.authKey.isSome = true →
       honoApp req env o
         = some (jsonResp 200 (.obj [("key", .str k)]), [.complete k u elems])) := by
  have hie : elems.isEmpty = false := by
    cases elems with
    | nil => exact absurd rfl hne
    | cons a l => rfl
  constructor
  · intro hpath hA
    exact workerFetch_complete_eq req env o _ _ hA hpath
      (flatComplete_ok req o elems k u hm hk hu hbody hvalid hie)
  · intro hsegs hb hks
    rw [honoApp_complete req env o hm hsegs hb hks,
        honoComplete_ok req o elems k u hk hu hbody hvalid hie]
    rfl

theorem complete_upload_forwards_parts_verbatim_witness :
    (workerFetch ⟨"POST", "/complete-upload", [("key", "a.txt"), ("uploadId", "u1")],
        some "secret",
        .jsonOf (.arr [.obj [("partNumber", .num 2), ("etag", .str "E2")],
                       .obj [("partNumber", .num (-1)), ("etag", .str "EN")],
                       .obj [("partNumber", .num 2), ("etag", .str "E2b")],
                       .obj [("partNumber", .num 0), ("etag", .str "E0")]])⟩
        envEx oracleEx
      = (jsonResp 200 (.obj [("key", .str "a.txt")]),
         [.complete "a.txt" "u1"
            [.obj [("partNumber", .num 2), ("etag", .str "E2")],
             .obj [("partNumber", .num (-1)), ("etag", .str "EN")],
             .obj [("partNumber", .num 2), ("etag", .str "E2b")],
             .obj [("partNumber", .num 0), ("etag", .str "E0")]]])) ∧
    honoApp ⟨"POST", "/uploads/complete", [("key", "a.txt"), ("uploadId", "u1")],
        some "secret",
        .jsonOf (.arr [.obj [("partNumber", .num 2), ("etag", .str "E2")],
                       .obj [("partNumber", .num (-1)), ("etag", .str "EN")],
                       .obj [("partNumber", .num 2), ("etag", .str "E2b")],
                       .obj [("partNumber", .num 0), ("etag", .str "E0")]])⟩
        envEx oracleEx
      = some (jsonResp 200 (.obj [("key", .str "a.txt")]),
         [.complete "a.txt" "u1"
            [.obj [("partNumber", .num 2), ("etag", .str "E2")],
             .obj [("partNumber", .num (-1)), ("etag", .str "EN")],
             .obj [("partNumber", .num 2), ("etag", .str "E2b")],
             .obj [("partNumber", .num 0), ("etag", .str "E0")]]]) := by
  constructor
  · exact (complete_upload_forwards_parts_verbatim
      ⟨"POST", "/complete-upload", [("key", "a.txt"), ("uploadId", "u1")], some "secret",
        .jsonOf (.arr [.obj [("partNumber", .num 2), ("etag", .str "E2")],
                       .obj [("partNumber", .num (-1)), ("etag", .str "EN")],
                       .obj [("partNumber", .num 2), ("etag", .str "E2b")],
                       .obj [("partNumber", .num 0), ("etag", .str "E0")]])⟩
      envEx oracleEx _ "a.txt" "u1" rfl rfl rfl rfl rfl
      (List.cons_ne_nil _ _)).1 rfl rfl
  · exact (complete_upload_forwards_parts_verbatim
      ⟨"POST", "/uploads/complete", [("key", "a.txt"), ("uploadId", "u1")], some "secret",
        .jsonOf (.arr [.obj [("partNumber", .num 2), ("etag", .str "E2")],
                       .obj [("partNumber", .num (-1)), ("etag", .str "EN")],
                       .obj [("partNumber", .num 2), ("etag", .str "E2b")],
                       .obj [("partNumber", .num 0), ("etag", .str "E0")]])⟩
      envEx oracleEx _ "a.txt" "u1" rfl rfl rfl rfl rfl
      (List.cons_ne_nil _ _)).2 rfl rfl rfl

/-- C7: for an authorized POST upload-part request, the `partNumber` query
parameter must parse under JavaScript `parseInt(·, 10)` semantics: when it is
absent or parses to `NaN` the response is 400 with no backing-store call
(absence of the body, `key` or `uploadId` equally gives 400 here), and
otherwise — with the body and the other parameters present — the exact
parsed integer is forwarded to the backing store's upload-part call and the
response is 200.  Likewise on the Hono app's matched route with bindings
configured. -/
theorem upload_part_part_number_parsing
    (req : Request) (env : Env) (o : Oracle) :
    (firstPath req.pathname = some "upload-part" → flatAuthOk req env = true →
       req.method = "POST" →
       ((List.lookup "partNumber" req.query = none ∨
           (∃ v, List.lookup "partNumber" req.query = some v ∧ jsParseInt10 v = none)) →
          (workerFetch req env o).1.status = 400 ∧ (workerFetch req env o).2 = []) ∧
       (∀ k u v n, req.body ≠ .absent →
          List.lookup "key" req.query = some k →
          List.lookup "uploadId" req.query = some u →
          List.lookup "partNumber" req.query = some v →
          jsParseInt10 v = some n →
          (workerFetch req env o).1.status = 200 ∧
            (workerFetch req env o).2 = [.uploadPart k u n req.body])) ∧
    (req.method = "POST" → honoSegs req.pathname = ["uploads", "upload-part"] →
       env.bucketBound = true → env.authKey.isSome = true →
       ((List.lookup "partNumber" req.query = none ∨
           (∃ v, List.lookup "partNumber" req.query = some v ∧ jsParseInt10 v = none)) →
          ∃ resp, honoApp req env o = some (resp, []) ∧ resp.status = 400) ∧
       (∀ k u v n, req.body ≠ .absent →
          List.lookup "key" req.query = some k →
          List.lookup "uploadId" req.query = some u →
          List.lookup "partNumber" req.query = some v →
          jsParseInt10 v = some n →
          ∃ resp, honoApp req env o = some (resp, [.uploadPart k u n req.body]) ∧
            resp.status = 200)) := by
  constructor
  · intro hpath hA hm
    constructor
    · intro hnum
      rcases flatUploadPart_bad_num req o hm hnum with ⟨r, hr, hst⟩
      rw [workerFetch_of_handler_some req env o r []
        ((handleRequest_uploadPart req env o hA hpath).trans hr)]
      exact ⟨hst, rfl⟩
    · intro k u v n hbody hk hu hpn hparse
      rcases flatUploadPart_forwards req o k u v n hm hbody hk hu hpn hparse
        with ⟨htr, r, hr, hst⟩
      rcases hfull : flatUploadPart req o with ⟨r?, t⟩
      rw [hfull] at htr hr
      simp only at htr hr
      subst htr
      subst hr
      rw [workerFetch_of_handler_some req env o r [.uploadPart k u n req.body]
        ((handleRequest_uploadPart req env o hA hpath).trans hfull)]
      exact ⟨hst, rfl⟩
  · intro hm hsegs hb hks
    have happ := honoApp_uploadPart req env o hm hsegs hb hks
    constructor
    · intro hnum
      rcases honoUploadPart_bad_num req o hnum with ⟨m, hup⟩
      refine ⟨⟨400, errJson m⟩, ?_, rfl⟩
      rw [happ, hup]
      rfl
    · intro k u v n hbody hk hu hpn hparse
      rcases honoUploadPart_forwards req o k u v n hbody hk hu hpn hparse
        with ⟨htr, r, hr, hst⟩
      refine ⟨r, ?_, hst⟩
      rcases hfull : honoUploadPart req o with ⟨r?, t⟩
      rw [hfull] at htr hr
      simp only at htr hr
      subst htr
      subst hr
      rw [happ, hfull]
      rfl

theorem upload_part_part_number_parsing_witness :
    ((workerFetch ⟨"POST", "/upload-part",
        [("key", "a.txt"), ("uploadId", "u1"), ("partNumber", "abc")],
        some "secret", .nonJson "bytes"⟩ envEx oracleEx).1.status = 400 ∧
      (workerFetch ⟨"POST", "/upload-part",
        [("key", "a.txt"), ("uploadId", "u1"), ("partNumber", "abc")],
        some "secret", .nonJson "bytes"⟩ envEx oracleEx).2 = []) ∧
    ((workerFetch ⟨"POST", "/upload-part",
        [("key", "a.txt"), ("uploadId", "u1"), ("partNumber", "12abc")],
        some "secret", .nonJson "bytes"⟩ envEx oracleEx).1.status = 200 ∧
      (workerFetch ⟨"POST", "/upload-part",
        [("key", "a.txt"), ("uploadId", "u1"), ("partNumber", "12abc")],
        some "secret", .nonJson "bytes"⟩ envEx oracleEx).2
        = [.uploadPart "a.txt" "u1" 12 (.nonJson "bytes")]) ∧
    (∃ resp, honoApp ⟨"POST", "/uploads/upload-part",
        [("key", "a.txt"), ("uploadId", "u1"), ("partNumber", "7")],
        some "secret", .nonJson "bytes"⟩ envEx oracleEx
        = some (resp, [.uploadPart "a.txt" "u1" 7 (.nonJson "bytes")]) ∧
      resp.status = 200) := by
  refine ⟨?_, ?_, ?_⟩
  · exact ((upload_part_part_number_parsing ⟨"POST", "/upload-part",
      [("key", "a.txt"), ("uploadId", "u1"), ("partNumber", "abc")],
      some "secret", .nonJson "bytes"⟩ envEx oracleEx).1 rfl rfl rfl).1
      (Or.inr ⟨"abc", rfl, rfl⟩)
  · have h := ((upload_part_part_number_parsing ⟨"POST", "/upload-part",
      [("key", "a.txt"), ("uploadId", "u1"), ("partNumber", "12abc")],
      some "secret", .nonJson "bytes"⟩ envEx oracleEx).1 rfl rfl rfl).2
      "a.txt" "u1" "12abc" 12 (by intro h; cases h) rfl rfl rfl rfl
    exact h
  · exact ((upload_part_part_number_parsing ⟨"POST", "/uploads/upload-part",
      [("key", "a.txt"), ("uploadId", "u1"), ("partNumber", "7")],
      some "secret", .nonJson "bytes"⟩ envEx oracleEx).2 rfl rfl rfl rfl).2
      "a.txt" "u1" "7" 7 (by intro h; cases h) rfl rfl rfl rfl

/-- C8: a DELETE request on the Hono app's `/objects/:key` route calls the
backing store's delete unconditionally — the call trace is exactly the
delete, with no prior existence check — and answers 204 with an empty body,
for every oracle (in particular one where the key does not exist); the route
never answers 404. -/
theorem delete_unconditional_204
    (req : Request) (env : Env) (o : Oracle) (k : String)
    (hm : req.method = "DELETE") (hsegs : honoSegs req.pathname = ["objects", k])
    (hk : k ≠ "") :
    (env.bucketBound = true → env.authKey.isSome = true →
       honoApp req env o = some (⟨204, .empty⟩, [.delete k])) ∧
    (∀ rt, honoApp req env o = some rt → rt.1.status ≠ 404) := by
  have hroute : ∀ (hb : env.bucketBound = true) (hks : env.authKey.isSome = true),
      honoApp req env o = some (⟨204, .empty⟩, [.delete k]) := by
    intro hb hks
    rw [honoApp_bound req env o hb hks, honoDispatch_delete req o k hm hsegs hk]
    rfl
  refine ⟨hroute, ?_⟩
  intro rt h
  cases hb : env.bucketBound with
  | false =>
    have hA : honoApp req env o = some (⟨500, errJson "Missing BUCKET binding"⟩, []) := by
      simp [honoApp, hb]
    rw [hA] at h
    rw [← Option.some.inj h]
    decide
  | true =>
    rcases hks : env.authKey with _ | s
    · have hA : honoApp req env o = some (⟨500, errJson "Missing AUTH_KEY secret"⟩, []) := by
        simp [honoApp, hb, hks]
      rw [hA] at h
      rw [← Option.some.inj h]
      decide
    · rw [hroute hb (by rw [hks]; rfl)] at h
      rw [← Option.some.inj h]
      simp

theorem delete_unconditional_204_witness :
    honoApp ⟨"DELETE", "/objects/missing.bin", [], some "secret", .absent⟩
        envEx oracleEx
      = some (⟨204, .empty⟩, [.delete "missing.bin"]) ∧
    oracleEx.getReply "missing.bin" = none := by
  constructor
  · exact (delete_unconditional_204 ⟨"DELETE", "/objects/missing.bin", [],
      some "secret", .absent⟩ envEx oracleEx "missing.bin" rfl rfl
      (by decide)).1 rfl rfl
  · rfl

/-- C5 counterexample: the claim says every non-2xx response is JSON
`{"error": msg}` and that start-upload without a key yields
`{"error": "Missing key"}`; but the flat worker answers a wrong-method
request with a plain-text 405 body, and an authorized POST start-upload
without a key with a plain-text 400 body `Invalid or missing key` (not the
claimed JSON `{"error": "Missing key"}`). -/
theorem flat_worker_text_error_bodies :
    (workerFetch ⟨"GET", "/start-upload", [], some "secret", .absent⟩
        envEx oracleEx).1 = ⟨405, .text "Method not allowed"⟩ ∧
    (workerFetch ⟨"POST", "/start-upload", [], some "secret", .absent⟩
        envEx oracleEx).1 = ⟨400, .text "Invalid or missing key"⟩ ∧
    (workerFetch ⟨"POST", "/start-upload", [], some "secret", .absent⟩
        envEx oracleEx).1.body ≠ errJson "Missing key" := by
  refine ⟨rfl, rfl, fun h => ?_⟩
  exact ResBody.noConfusion h

/-- C5 amended: every flat-worker response has status among
200/400/401/404/405/500, but its 405 and missing/invalid-parameter 400
responses carry plain-text bodies ("Method not allowed",
"Invalid or missing <name>", "Invalid <name>") while its other error
responses are JSON `{"error": msg}`; every response produced by the Hono
app's own code has status among 200/204/400/404/500 with every non-2xx body
of the JSON `{"error": msg}` shape, and there start-upload
(`/uploads/create`) without a `key` query parameter is answered 400
`{"error": "Missing key"}`. -/
theorem error_status_and_body_shape
    (req : Request) (env : Env) (o : Oracle) :
    (FlatStatusOk (workerFetch req env o).1.status ∧
      ((workerFetch req env o).1.status ≠ 200 →
        FlatErrBodyOk (workerFetch req env o).1.body)) ∧
    (∀ rt, honoApp req env o = some rt →
      HonoStatusOk rt.1.status ∧
        (rt.1.status ≠ 200 → rt.1.status ≠ 204 → ∃ m, rt.1.body = errJson m)) ∧
    (req.method = "POST" → honoSegs req.pathname = ["uploads", "create"] →
      env.bucketBound = true → env.authKey.isSome = true →
      List.lookup "key" req.query = none →
      honoApp req env o = some (⟨400, errJson "Missing key"⟩, [])) := by
  refine ⟨workerFetch_shape req env o,
    fun rt h => honoApp_shape req env o rt h, ?_⟩
  intro hm hsegs hb hks hk
  rw [honoApp_bound req env o hb hks, honoDispatch_create req o hm hsegs]
  simp [honoCreate, getQueryString, hk, honoRun]

theorem error_status_and_body_shape_witness :
    honoApp ⟨"POST", "/uploads/create", [("other", "1")], none, .absent⟩
        envEx oracleEx
      = some (⟨400, errJson "Missing key"⟩, []) ∧
    FlatStatusOk (workerFetch ⟨"GET", "/nope", [], none, .absent⟩
        envEx oracleEx).1.status := by
  constructor
  · exact (error_status_and_body_shape
      ⟨"POST", "/uploads/create", [("other", "1")], none, .absent⟩
      envEx oracleEx).2.2 rfl rfl rfl rfl rfl
  · exact (error_status_and_body_shape
      ⟨"GET", "/nope", [], none, .absent⟩ envEx oracleEx).1.1

end Udl
